import Mathlib

/-!
# PromptPilot — verification of the prompt-to-action resolution pipeline

A shallow embedding, in Lean 4, of the core of the PromptPilot desktop
assistant:

* `src/core/parser.py`   — `CommandParser.parse`, `_needs_llm`,
  `_parse_with_llm`, `_execute_llm_plan`, `_extract_name`;
* `src/core/llm_agent.py` — `LLMAgent._call_ollama`, `generate_plan`
  (including the JSON plan extraction from the backend response);
* `src/core/vision.py`   — `VisionEngine.get_ocr_with_positions`,
  `_detect_ui_elements`, `find_text_on_screen`;
* `src/main.py`          — `PromptPilotApp._run_action` (the worker-level
  exception boundary).

Conventions of the embedding:

* Python strings are Lean `String` / `List Char`; Python's `str.lower`,
  `str.strip` and the character classes of the `re` module are modelled by
  the executable functions `pyToLower`, `pyStrip`, `isPyWs`, `isPyWord`
  below (ASCII-faithful; the prompts the program handles are ASCII).
* Each regular expression the source uses is embedded as an executable
  matcher with Python `re.search` semantics (leftmost match, greedy /
  lazy / optional quantifier preferences, alternation order).  Every
  matcher definition carries the regex it embeds in its doc string.
* JSON values are the inductive `Json`; `json.loads` is the executable
  recursive-descent parser `jsonLoads` (strict JSON: objects, arrays,
  strings with escapes, integer/fraction/exponent numbers, `true`,
  `false`, `null`; the non-standard `NaN`/`Infinity` extensions of the
  Python parser are outside the model).
* Side effects (launching the browser, clicking, typing, sleeping) are
  recorded as an `Effect` trace; primitive calls that may raise are
  modelled by an environment (`ExecEnv`) that maps each call to either
  success or an exception message, and exceptions are propagated as
  `Option String` alongside the trace.
-/

/-! ## Python string primitives -/

/-- Python `str.lower` on one character (ASCII range, which is what the
command vocabulary uses): uppercase `A`–`Z` maps to `a`–`z`. -/
def pyToLower (c : Char) : Char :=
  if 65 ≤ c.toNat ∧ c.toNat ≤ 90 then Char.ofNat (c.toNat + 32) else c

/-- Whitespace for Python's `str.strip` and the regex class `\s`
(ASCII part): space, tab, newline, carriage return, vertical tab,
form feed (code points 32, 9, 10, 13, 11, 12). -/
def isPyWs (c : Char) : Bool :=
  decide (c.toNat = 32 ∨ c.toNat = 9 ∨ c.toNat = 10 ∨ c.toNat = 13 ∨
          c.toNat = 11 ∨ c.toNat = 12)

/-- The regex class `\w` (ASCII part): letters (`a`–`z`, `A`–`Z`),
digits, underscore (code point 95). -/
def isPyWord (c : Char) : Bool :=
  decide (97 ≤ c.toNat ∧ c.toNat ≤ 122 ∨ 65 ≤ c.toNat ∧ c.toNat ≤ 90 ∨
          48 ≤ c.toNat ∧ c.toNat ≤ 57 ∨ c.toNat = 95)

/-- The regex class `[\w\s]`. -/
def isPyWordOrWs (c : Char) : Bool := isPyWord c || isPyWs c

/-- The apostrophe character, used by the quote-aware matchers. -/
def aposC : Char := Char.ofNat 39

/-- The apostrophe as a one-character string. -/
def aposS : String := String.mk [aposC]

/-- A quote character in the sense of the regex class `["\']`
(code points 34 and 39). -/
def isQuote (c : Char) : Bool := decide (c.toNat = 34 ∨ c.toNat = 39)

/-- Python `str.lower` over a whole string (character list). -/
def pyLower (l : List Char) : List Char := l.map pyToLower

/-- Python `str.strip`: drop leading and trailing whitespace. -/
def pyStrip (l : List Char) : List Char :=
  ((l.dropWhile isPyWs).reverse.dropWhile isPyWs).reverse

/-- `prompt.lower().strip()` — the normalisation `CommandParser.parse`
applies before matching (src/core/parser.py line 27). -/
def pyLowerStrip (l : List Char) : List Char := pyStrip (pyLower l)

/-- String form of `pyStrip`. -/
def pyStripS (s : String) : String := String.mk (pyStrip s.data)

/-- Bool test that `needle` occurs somewhere inside `hay`
(Python's `needle in hay`). -/
def occursB (needle hay : List Char) : Bool :=
  hay.tails.any (fun t => needle.isPrefixOf t)

/-- Python `c in s` for a single character. -/
def charIn (c : Char) (l : List Char) : Bool := l.any (fun d => d = c)

/-! ## Regex matchers of `CommandParser` (src/core/parser.py)

Each definition embeds one regular expression used by the source, with
Python `re.search` semantics: leftmost match wins; at a fixed position,
greedy quantifiers prefer longer, lazy quantifiers prefer shorter, and
optional groups prefer presence; alternatives are tried left to right. -/

/-- The character list of a string literal. -/
def strL (s : String) : List Char := s.data

/-- `A.*B.*C` style search: each part (a set of literal alternatives)
must occur in order, without overlap.  (The parts the source uses never
contain a newline, and the prompts are single-line, so `.` is unrestricted
in the model.) -/
def seqSearch : List (List (List Char)) → List Char → Bool
  | [], _ => true
  | alts :: rest, hay =>
      hay.tails.any (fun t => alts.any (fun a => a.isPrefixOf t && seqSearch rest (t.drop a.length)))

/-- Backtracking for a greedy `\s+`: try consuming the maximal whitespace
run first, then ever shorter non-empty prefixes of it. -/
def wsBacktrack (rest : List Char) (f : List Char → Option α) : Option α :=
  let n := (rest.takeWhile isPyWs).length
  (List.range n).findSome? (fun i => f (rest.drop (n - i)))

/-- `(what'?s|what is|describe|show).*(on|my).*screen`
(parser.py line 38). -/
def reDescribe (pl : List Char) : Bool :=
  seqSearch [[strL "what" ++ [aposC, 's'], strL "whats", strL "what is", strL "describe", strL "show"],
             [strL "on", strL "my"], [strL "screen"]] pl

/-- One anchored attempt of `(find|click|locate)\s+["\']?([^"\']+)["\']?`
(parser.py lines 45–46), returning (keyword, raw capture). -/
def fclAt (t : List Char) : Option (List Char × List Char) :=
  [strL "find", strL "click", strL "locate"].findSome? fun kw =>
    if kw.isPrefixOf t then
      wsBacktrack (t.drop kw.length) (fun r1 =>
        match r1 with
        | [] => none
        | c :: body =>
          if isQuote c then
            let cap := body.takeWhile (fun d => !isQuote d)
            if cap.isEmpty then none else some (kw, cap)
          else
            some (kw, r1.takeWhile (fun d => !isQuote d)))
    else none

/-- `(find|click|locate)\s+["\']?([^"\']+)["\']?` over the whole prompt. -/
def reFindClickLocate (pl : List Char) : Option (List Char × List Char) :=
  pl.tails.findSome? fclAt

/-- `(read|what).*text.*(on|screen|visible)` (parser.py line 62). -/
def reReadText (pl : List Char) : Bool :=
  seqSearch [[strL "read", strL "what"], [strL "text"],
             [strL "on", strL "screen", strL "visible"]] pl

/-- `(answer|tell me|what|where|how many).*(about|on|screen)`
(parser.py line 69). -/
def reAnswer (pl : List Char) : Bool :=
  seqSearch [[strL "answer", strL "tell me", strL "what", strL "where", strL "how many"],
             [strL "about", strL "on", strL "screen"]] pl

/-- `(make|create|new).*google.*sheet` (parser.py line 76). -/
def reSheet (pl : List Char) : Bool :=
  seqSearch [[strL "make", strL "create", strL "new"], [strL "google"], [strL "sheet"]] pl

/-- One anchored attempt of `{kw}\s+(["\']?)([\w\s]+)\1`
(`_extract_name`, parser.py line 275), returning group 2.  The
backreference `\1` forces the same quote (or nothing) after the capture;
since the capture class `[\w\s]` contains no quote, only the maximal run
can be followed by the back-referenced quote. -/
def nameAfterKwAt (kw : List Char) (t : List Char) : Option (List Char) :=
  if kw.isPrefixOf t then
    wsBacktrack (t.drop kw.length) (fun r1 =>
      match r1 with
      | [] => none
      | c :: body =>
        if isQuote c then
          let cap := body.takeWhile isPyWordOrWs
          if cap.isEmpty then none
          else
            match body.drop cap.length with
            | d :: _ => if d = c then some cap else none
            | [] => none
        else
          let cap := r1.takeWhile isPyWordOrWs
          if cap.isEmpty then none else some cap)
  else none

/-- `_extract_name(prompt, ['sheet', 'called', 'named'])` (parser.py
lines 272–279): first keyword whose pattern matches wins; the capture is
stripped. -/
def extractName (pl : List Char) : Option (List Char) :=
  [strL "sheet", strL "called", strL "named"].findSome?
    (fun kw => ((pl.tails.findSome? (nameAfterKwAt kw)).map pyStrip))

/-- `open\s+([\w\s]+)` as a Bool test (parser.py line 84).  One
whitespace character followed by one `[\w\s]` character after `open` is
both sufficient and necessary, because whitespace itself belongs to the
capture class. -/
def reOpenOuter (pl : List Char) : Bool :=
  pl.tails.any fun t =>
    (strL "open").isPrefixOf t &&
    (match t.drop 4 with
     | c1 :: c2 :: _ => isPyWs c1 && isPyWordOrWs c2
     | _ => false)

/-- `(?:$|\s+and|\s+then)` — the tail of the inner `open` regex. -/
def openTailOk (u : List Char) : Bool :=
  u.isEmpty ||
  (let w := u.takeWhile isPyWs
   !w.isEmpty && ((strL "and").isPrefixOf (u.drop w.length) ||
                  (strL "then").isPrefixOf (u.drop w.length)))

/-- `(?:\s+app)?(?:$|\s+and|\s+then)` after the lazy capture. -/
def openAfterGroup (u : List Char) : Bool :=
  (let w := u.takeWhile isPyWs
   !w.isEmpty && (strL "app").isPrefixOf (u.drop w.length) &&
     openTailOk ((u.drop w.length).drop 3))
  || openTailOk u

/-- The lazy capture `([\w\s]+?)`: the shortest non-empty class run whose
remainder is accepted by `openAfterGroup`. -/
def openLazyGroup (r2 : List Char) : Option (List Char) :=
  let m := (r2.takeWhile isPyWordOrWs).length
  (List.range m).findSome? fun i =>
    if openAfterGroup (r2.drop (i + 1)) then some (r2.take (i + 1)) else none

/-- One anchored attempt of
`open\s+(?:the\s+)?([\w\s]+?)(?:\s+app)?(?:$|\s+and|\s+then)`
(parser.py line 85), returning the raw capture. -/
def openInnerAt (t : List Char) : Option (List Char) :=
  if (strL "open").isPrefixOf t then
    wsBacktrack (t.drop 4) fun r1 =>
      (if (strL "the").isPrefixOf r1 then
         wsBacktrack (r1.drop 3) (fun r2 => openLazyGroup r2)
       else none)
      <|> openLazyGroup r1
  else none

/-- The inner `open` regex over the whole prompt; the capture is stripped
(`app_match.group(1).strip()`, parser.py line 87). -/
def reOpenInner (pl : List Char) : Option (List Char) :=
  (pl.tails.findSome? openInnerAt).map pyStrip

/-- One anchored attempt of `{kw}\s+["\'](.+?)["\']` (parser.py
lines 94–95 with `type`, line 145 with `copy`): an opening quote, then the
lazy `(.+?)` — the shortest non-empty newline-free run whose next
character is again a quote. -/
def quotedCapAt (kw : List Char) (t : List Char) : Option (List Char) :=
  if kw.isPrefixOf t then
    wsBacktrack (t.drop kw.length) fun r1 =>
      match r1 with
      | [] => none
      | c :: body =>
        if isQuote c then
          (List.range body.length).findSome? fun i =>
            match body.drop (i + 1) with
            | d :: _ =>
                if isQuote d && !(body.take (i + 1)).contains '\n' then
                  some (body.take (i + 1))
                else none
            | [] => none
        else none
  else none

/-- `{kw}\s+["\'](.+?)["\']` over the whole prompt. -/
def reQuotedAfterKw (kw : List Char) (pl : List Char) : Option (List Char) :=
  pl.tails.findSome? (quotedCapAt kw)

/-- One anchored attempt of `type\s+([^in]+?)\s+in\s+` (parser.py
line 94/97): a lazy run of characters other than `i` and `n`, then
whitespace, `in`, whitespace. -/
def typeUnquotedAt (t : List Char) : Option (List Char) :=
  if (strL "type").isPrefixOf t then
    wsBacktrack (t.drop 4) fun r1 =>
      let m := (r1.takeWhile (fun c => !(c = 'i' || c = 'n'))).length
      (List.range m).findSome? fun i =>
        let u := r1.drop (i + 1)
        let w := u.takeWhile isPyWs
        if !w.isEmpty && (strL "in").isPrefixOf (u.drop w.length) &&
            !(((u.drop w.length).drop 2).takeWhile isPyWs).isEmpty then
          some (r1.take (i + 1))
        else none
  else none

/-- `type\s+([^in]+?)\s+in\s+` over the whole prompt. -/
def reTypeUnquoted (pl : List Char) : Option (List Char) :=
  pl.tails.findSome? typeUnquotedAt

/-- One anchored attempt of `{kw}\s+([\w\s]+)` (used with `in` at
parser.py line 101 and with `play` at line 125): greedy class capture. -/
def classPlusCapAt (kw : List Char) (t : List Char) : Option (List Char) :=
  if kw.isPrefixOf t then
    wsBacktrack (t.drop kw.length) fun r1 =>
      let cap := r1.takeWhile isPyWordOrWs
      if cap.isEmpty then none else some cap
  else none

/-- `in\s+([\w\s]+)` over the whole prompt. -/
def reInApp (pl : List Char) : Option (List Char) :=
  pl.tails.findSome? (classPlusCapAt (strL "in"))

/-- `play\s+([\w\s]+)` over the whole prompt. -/
def rePlay (pl : List Char) : Option (List Char) :=
  pl.tails.findSome? (classPlusCapAt (strL "play"))

/-- `{lit}\s+`: the literal followed by at least one whitespace
character; all following tokens of the patterns using this helper start
with a non-whitespace character, so consuming the whole run is exact. -/
def litWs (lit : List Char) (u : List Char) : Option (List Char) :=
  if lit.isPrefixOf u then
    let v := u.drop lit.length
    let w := v.takeWhile isPyWs
    if w.isEmpty then none else some (v.drop w.length)
  else none

/-- One anchored attempt of
`draw\s+(?:a\s+)?(?:red\s+)?circle\s+in\s+paint` (parser.py line 110). -/
def drawAt (t : List Char) : Bool :=
  match litWs (strL "draw") t with
  | none => false
  | some r0 =>
    let afterA := match litWs (strL "a") r0 with | some r => [r, r0] | none => [r0]
    afterA.any fun r1 =>
      let afterRed := match litWs (strL "red") r1 with | some r => [r, r1] | none => [r1]
      afterRed.any fun r2 =>
        match litWs (strL "circle") r2 with
        | none => false
        | some r3 =>
          match litWs (strL "in") r3 with
          | none => false
          | some r4 => (strL "paint").isPrefixOf r4

/-- `draw\s+(?:a\s+)?(?:red\s+)?circle\s+in\s+paint` over the prompt. -/
def reDraw (pl : List Char) : Bool := pl.tails.any drawAt

/-- One anchored attempt of `take\s+(?:a\s+)?screenshot`
(parser.py line 117). -/
def screenshotAt (t : List Char) : Bool :=
  match litWs (strL "take") t with
  | none => false
  | some r0 =>
    let opts := match litWs (strL "a") r0 with | some r => [r, r0] | none => [r0]
    opts.any (fun r1 => (strL "screenshot").isPrefixOf r1)

/-- `take\s+(?:a\s+)?screenshot` over the prompt. -/
def reScreenshot (pl : List Char) : Bool := pl.tails.any screenshotAt

/-- `open\s+spotify` (parser.py line 124). -/
def reOpenSpotify (pl : List Char) : Bool :=
  pl.tails.any fun t =>
    match litWs (strL "open") t with
    | some r => (strL "spotify").isPrefixOf r
    | none => false

/-- `open\s+(https?://[^\s]+)` (parser.py line 134), returning the
captured URL. -/
def reOpenUrl (pl : List Char) : Option (List Char) :=
  pl.tails.findSome? fun t =>
    match litWs (strL "open") t with
    | none => none
    | some r =>
      let tryScheme : List Char → Option (List Char) := fun pre =>
        if pre.isPrefixOf r then
          let cap := (r.drop pre.length).takeWhile (fun c => !isPyWs c)
          if cap.isEmpty then none else some (pre ++ cap)
        else none
      tryScheme (strL "https://") <|> tryScheme (strL "http://")

/-- `re.match(r'^open\s+\w+$', ...)` (`_needs_llm`, parser.py
line 183). -/
def matchOpenSimple (pl : List Char) : Bool :=
  (strL "open").isPrefixOf pl &&
  (let r := pl.drop 4
   let w := r.takeWhile isPyWs
   !w.isEmpty &&
     (let u := r.drop w.length
      !u.isEmpty && u.all isPyWord))

/-- `re.match(r'^take\s+screenshot$', ...)` (parser.py line 184). -/
def matchTakeScreenshotSimple (pl : List Char) : Bool :=
  (strL "take").isPrefixOf pl &&
  (let r := pl.drop 4
   let w := r.takeWhile isPyWs
   !w.isEmpty && r.drop w.length = strL "screenshot")

/-- `re.match(r'^copy\s+".*"$', ...)` (parser.py line 185). -/
def matchCopySimple (pl : List Char) : Bool :=
  (strL "copy").isPrefixOf pl &&
  (let r := pl.drop 4
   let w := r.takeWhile isPyWs
   !w.isEmpty &&
     (match r.drop w.length with
      | c :: rest =>
          c = '"' && !rest.isEmpty && rest.getLast? == some '"' &&
            !(rest.take (rest.length - 1)).contains '\n'
      | [] => false))

/-- `CommandParser._needs_llm` (parser.py lines 179–203). -/
def needsLlm (pl : List Char) : Bool :=
  if matchOpenSimple pl || matchTakeScreenshotSimple pl || matchCopySimple pl then
    false
  else if [strL "create", strL "make", strL "build", strL "generate", strL "set up",
           strL "configure", strL "add", strL "remove", strL "update", strL "change"].any
            (fun kw => occursB kw pl) then
    true
  else
    [strL "then", strL "and", strL "after", strL "next"].any (fun kw => occursB kw pl)

/-! ## JSON values and `json.loads` (used by `LLMAgent.generate_plan`) -/

/-- JSON values, as produced by `json.loads`: Python `None`, `bool`,
numbers, `str`, `list`, `dict`. -/
inductive Json where
  | null
  | bool (b : Bool)
  | num (q : ℚ)
  | str (s : String)
  | arr (elems : List Json)
  | obj (fields : List (String × Json))

/-- JSON inter-token whitespace (exactly the four characters the Python
parser skips). -/
def jsonSkipWs (cs : List Char) : List Char :=
  cs.dropWhile (fun c => c = ' ' || c = '\t' || c = '\n' || c = '\r')

/-- Value of one hexadecimal digit. -/
def hexVal (c : Char) : Option Nat :=
  if '0' ≤ c ∧ c ≤ '9' then some (c.toNat - 48)
  else if 'a' ≤ c ∧ c ≤ 'f' then some (c.toNat - 87)
  else if 'A' ≤ c ∧ c ≤ 'F' then some (c.toNat - 55)
  else none

/-- JSON string body, after the opening quote: strict mode (raw control
characters rejected), with the standard escapes. -/
def pJsonString (acc : List Char) : List Char → Option (String × List Char)
  | [] => none
  | c :: rest =>
    if c = '"' then some (String.mk acc.reverse, rest)
    else if c = '\\' then
      match rest with
      | [] => none
      | e :: rest2 =>
        if e = '"' then pJsonString ('"' :: acc) rest2
        else if e = '\\' then pJsonString ('\\' :: acc) rest2
        else if e = '/' then pJsonString ('/' :: acc) rest2
        else if e = 'b' then pJsonString ('\x08' :: acc) rest2
        else if e = 'f' then pJsonString ('\x0c' :: acc) rest2
        else if e = 'n' then pJsonString ('\n' :: acc) rest2
        else if e = 'r' then pJsonString ('\r' :: acc) rest2
        else if e = 't' then pJsonString ('\t' :: acc) rest2
        else if e = 'u' then
          match rest2 with
          | h1 :: h2 :: h3 :: h4 :: rest3 =>
            match hexVal h1, hexVal h2, hexVal h3, hexVal h4 with
            | some a, some b, some c', some d =>
                let n := ((a * 16 + b) * 16 + c') * 16 + d
                if n < 0xd800 then pJsonString (Char.ofNat n :: acc) rest3
                else none
            | _, _, _, _ => none
          | _ => none
        else none
    else if c.toNat < 32 then none
    else pJsonString (c :: acc) rest

/-- Decimal digits to a natural number. -/
def digitsToNat (ds : List Char) : Nat :=
  ds.foldl (fun n c => n * 10 + (c.toNat - 48)) 0

/-- JSON number grammar: `-? (0 | [1-9][0-9]*) (.[0-9]+)? ([eE][+-]?[0-9]+)?`. -/
def pJsonNumber (cs : List Char) : Option (ℚ × List Char) :=
  let (neg, cs1) := match cs with
    | '-' :: r => (true, r)
    | _ => (false, cs)
  match cs1 with
  | [] => none
  | c :: _ =>
    if !c.isDigit then none
    else
      let ds := cs1.takeWhile Char.isDigit
      if 1 < ds.length ∧ c = '0' then none
      else
        let rest1 := cs1.drop ds.length
        let intPart : ℚ := (digitsToNat ds : ℚ)
        let fracStep : Option (ℚ × List Char) :=
          match rest1 with
          | '.' :: r2 =>
            let fs := r2.takeWhile Char.isDigit
            if fs.isEmpty then none
            else some (intPart + (digitsToNat fs : ℚ) / ((10 : ℚ) ^ fs.length),
                       r2.drop fs.length)
          | _ => some (intPart, rest1)
        match fracStep with
        | none => none
        | some (q1, rest2) =>
          let expStep : Option (ℚ × List Char) :=
            match rest2 with
            | e :: r3 =>
              if e = 'e' ∨ e = 'E' then
                let (eneg, r4) := match r3 with
                  | '+' :: r5 => (false, r5)
                  | '-' :: r5 => (true, r5)
                  | _ => (false, r3)
                let es := r4.takeWhile Char.isDigit
                if es.isEmpty then none
                else
                  let p : ℚ := (10 : ℚ) ^ digitsToNat es
                  some (if eneg then q1 / p else q1 * p, r4.drop es.length)
              else some (q1, rest2)
            | [] => some (q1, rest2)
          match expStep with
          | none => none
          | some (q2, rest3) => some (if neg then -q2 else q2, rest3)

mutual

/-- Recursive-descent JSON value parser (fuel-indexed). -/
def pJsonValue : Nat → List Char → Option (Json × List Char)
  | 0, _ => none
  | fuel + 1, cs0 =>
    let cs := jsonSkipWs cs0
    match cs with
    | [] => none
    | c :: rest =>
      if c = '"' then (pJsonString [] rest).map (fun p => (Json.str p.1, p.2))
      else if c = '[' then
        let r := jsonSkipWs rest
        if r.head? = some ']' then some (Json.arr [], r.tail)
        else pJsonItems fuel r []
      else if c = '\x7b' then
        let r := jsonSkipWs rest
        if r.head? = some '\x7d' then some (Json.obj [], r.tail)
        else pJsonFields fuel r []
      else if (strL "true").isPrefixOf cs then some (Json.bool true, cs.drop 4)
      else if (strL "false").isPrefixOf cs then some (Json.bool false, cs.drop 5)
      else if (strL "null").isPrefixOf cs then some (Json.null, cs.drop 4)
      else if c = '-' || c.isDigit then (pJsonNumber cs).map (fun p => (Json.num p.1, p.2))
      else none

/-- Comma-separated array items until `]`. -/
def pJsonItems : Nat → List Char → List Json → Option (Json × List Char)
  | 0, _, _ => none
  | fuel + 1, cs, acc =>
    match pJsonValue fuel cs with
    | none => none
    | some (v, r) =>
      match jsonSkipWs r with
      | c :: r2 =>
        if c = ',' then pJsonItems fuel r2 (v :: acc)
        else if c = ']' then some (Json.arr (v :: acc).reverse, r2)
        else none
      | [] => none

/-- Comma-separated `"key": value` fields until the closing brace. -/
def pJsonFields : Nat → List Char → List (String × Json) → Option (Json × List Char)
  | 0, _, _ => none
  | fuel + 1, cs, acc =>
    match jsonSkipWs cs with
    | c0 :: r =>
      if c0 = '"' then
        match pJsonString [] r with
        | none => none
        | some (k, r2) =>
          match jsonSkipWs r2 with
          | c1 :: r3 =>
            if c1 = ':' then
              match pJsonValue fuel r3 with
              | none => none
              | some (v, r4) =>
                match jsonSkipWs r4 with
                | c2 :: r5 =>
                  if c2 = ',' then pJsonFields fuel r5 ((k, v) :: acc)
                  else if c2 = '\x7d' then some (Json.obj ((k, v) :: acc).reverse, r5)
                  else none
                | [] => none
            else none
          | [] => none
      else none
    | [] => none

end

/-- `json.loads`: parse one JSON document, allowing surrounding
whitespace and nothing else. -/
def jsonLoads (s : String) : Option Json :=
  match pJsonValue (2 * s.length + 2) s.data with
  | some (v, rest) => if jsonSkipWs rest = [] then some v else none
  | none => none

/-! ## Plan extraction and `LLMAgent` (src/core/llm_agent.py) -/

/-- Python `s.find(c)`: index of the first occurrence. -/
def pyFindChar (cs : List Char) (c : Char) : Option Nat :=
  match cs with
  | [] => none
  | d :: rest => if d = c then some 0 else (pyFindChar rest c).map (· + 1)

/-- Python `s.rfind(c)`: index of the last occurrence. -/
def pyRFindChar (cs : List Char) (c : Char) : Option Nat :=
  (pyFindChar cs.reverse c).map (fun i => cs.length - 1 - i)

/-- `response[json_start:json_end]` with `json_start = find(o)` and
`json_end = rfind(c) + 1`, guarded by `json_start >= 0 and
json_end > json_start` (llm_agent.py lines 138–140 and 148–150). -/
def bracketBlock (o c : Char) (cs : List Char) : Option (List Char) :=
  match pyFindChar cs o, pyRFindChar cs c with
  | some i, some j => if i < j + 1 then some ((cs.drop i).take (j + 1 - i)) else none
  | _, _ => none

/-- The JSON-extraction logic of `LLMAgent.generate_plan`
(llm_agent.py lines 135–160): try the first-`[`-to-last-`]` slice as an
array; on a parse *exception* fall back to the first-`\x7b`-to-last-`\x7d`
slice as a single object wrapped in a one-element list; every other
outcome — including the absence of a `[`..`]` slice — ends at the final
`return []`. -/
def generatePlanExtract (response : String) : List Json :=
  match bracketBlock '[' ']' response.data with
  | some slice =>
    match jsonLoads (String.mk slice) with
    | some (Json.arr xs) => xs
    | some _ => []
    | none =>
      match bracketBlock '\x7b' '\x7d' response.data with
      | some slice2 =>
        match jsonLoads (String.mk slice2) with
        | some (Json.arr xs) => xs
        | some v => [v]
        | none => []
      | none => []
  | none => []

/-- Modelled from the spec (§4.2 response parsing), for comparison with
`generatePlanExtract`: "locate the first `[` and last `]`; if that block
fails to parse, locate the first `\x7b` and last `\x7d` and parse as a
single object, wrapping it in a one-element sequence. Any parse failure
yields an empty sequence."  Under this reading the object fallback also
runs when no `[`..`]` block exists at all. -/
def specPlanExtract (response : String) : List Json :=
  let objFallback : List Json :=
    match bracketBlock '\x7b' '\x7d' response.data with
    | some slice2 =>
      match jsonLoads (String.mk slice2) with
      | some (Json.arr xs) => xs
      | some v => [v]
      | none => []
    | none => []
  match bracketBlock '[' ']' response.data with
  | some slice =>
    match jsonLoads (String.mk slice) with
    | some (Json.arr xs) => xs
    | some _ => []
    | none => objFallback
  | none => objFallback

/-- Outcome of one `subprocess.run(["ollama", "run", ...])` invocation. -/
inductive BackendOutcome where
  | unreachable                      -- `FileNotFoundError`: binary missing
  | timeout                          -- `subprocess.TimeoutExpired` (30 s)
  | exited (code : Nat) (stdout : String)

/-- `LLMAgent._call_ollama` (llm_agent.py lines 65–85): `None` unless the
agent is available and the process exits 0, in which case the stripped
stdout is returned. -/
def callOllama (available : Bool) (outcome : BackendOutcome) (_prompt : String) :
    Option String :=
  if !available then none
  else
    match outcome with
    | .exited 0 out => some (String.mk (pyStrip out.data))
    | .exited _ _ => none
    | .timeout => none
    | .unreachable => none

/-- A detected UI element as consumed by the plan prompt: its text and
its coarse category (`button` / `input` / `text`).  The source carries
the position fields along as well, but the prompt builder reads only
`text` and `type`. -/
structure UiElem where
  text : String
  etype : String

/-- The `elements_text` digest (llm_agent.py lines 97–104). -/
def buildElementsText (ui : List UiElem) : String :=
  let buttons := ui.filter (fun e => e.etype = "button")
  let inputs := ui.filter (fun e => e.etype = "input")
  (if !buttons.isEmpty then
    "Buttons: " ++ String.intercalate ", " ((buttons.take 10).map (fun e => e.text)) ++ "\n"
   else "") ++
  (if !inputs.isEmpty then
    "Input fields: " ++ String.intercalate ", " ((inputs.take 10).map (fun e => e.text)) ++ "\n"
   else "")

/-- The fixed system prompt (llm_agent.py lines 107–117). -/
def systemPrompt : String :=
  "You are a desktop automation agent with vision capabilities.\n\nAvailable actions:\n- open_url: \x7b\"action\": \"open_url\", \"url\": \"https://example.com\"\x7d\n- click: \x7b\"action\": \"click\", \"x\": 100, \"y\": 200\x7d or \x7b\"action\": \"click\", \"text\": \"Login\"\x7d\n- type: \x7b\"action\": \"type\", \"text\": \"Hello\"\x7d\n- wait_for: \x7b\"action\": \"wait_for\", \"text\": \"Page loaded\", \"timeout\": 5\x7d\n- wait: \x7b\"action\": \"wait\", \"seconds\": 2\x7d\n- press_key: \x7b\"action\": \"press_key\", \"key\": \"enter\"\x7d\n\nReturn ONLY a JSON array of action objects, no other text."

/-- The full prompt `generate_plan` sends (llm_agent.py lines 119–129):
the OCR text is truncated to 1000 characters. -/
def buildFullPrompt (userPrompt ocrText : String) (ui : List UiElem) : String :=
  systemPrompt ++ "\n\n" ++
  "Current screen OCR text:\n" ++ String.mk (ocrText.data.take 1000) ++
  "\n\nDetected UI elements:\n" ++ buildElementsText ui ++
  "\nUser command: " ++ userPrompt ++
  "\n\nGenerate a step-by-step plan as JSON array:"

/-- Result of `generate_plan`, together with whether the backend process
was invoked at all. -/
structure PlanResult where
  plan : List Json
  backendInvoked : Bool

/-- `LLMAgent.generate_plan` (llm_agent.py lines 87–160). -/
def generatePlan (available : Bool) (outcome : BackendOutcome)
    (userPrompt ocrText : String) (uiElements : List UiElem) : PlanResult :=
  if !available then ⟨[], false⟩
  else
    let fullPrompt := buildFullPrompt userPrompt ocrText uiElements
    match callOllama available outcome fullPrompt with
    | none => ⟨[], true⟩
    | some response =>
      if response = "" then ⟨[], true⟩
      else ⟨generatePlanExtract response, true⟩

/-! ## Screen analysis (src/core/vision.py) -/

/-- One raw OCR fragment as delivered by the OCR backend: text,
confidence, bounding box (`left`, `top`, `width`, `height`). -/
structure OcrFrag where
  text : String
  conf : Int
  x : Nat
  y : Nat
  w : Nat
  h : Nat
  deriving DecidableEq

/-- One processed OCR element (`get_ocr_with_positions`): stripped text,
centre position, bounding box. -/
structure OcrElement where
  text : String
  posX : Nat
  posY : Nat
  bbox : Nat × Nat × Nat × Nat
  deriving DecidableEq

/-- `VisionEngine.get_ocr_with_positions` (vision.py lines 71–108):
keep fragments whose stripped text is non-empty and whose confidence is
positive; the position is the centre of the bounding box. -/
def getOcrWithPositions (ocrAvailable : Bool) (raw : List OcrFrag) : List OcrElement :=
  if !ocrAvailable then []
  else
    raw.filterMap fun f =>
      let t := pyStripS f.text
      if t ≠ "" ∧ 0 < f.conf then
        some { text := t, posX := f.x + f.w / 2, posY := f.y + f.h / 2,
               bbox := (f.x, f.y, f.w, f.h) }
      else none

/-- The mutable state of a `VisionEngine`: whether OCR is importable,
what a fresh capture would see now, and the cached `last_screenshot`. -/
structure VisionState where
  ocrAvailable : Bool
  liveScreen : List OcrFrag
  lastScreenshot : Option (List OcrFrag)

/-- `VisionEngine.find_text_on_screen` (vision.py lines 168–194): a
*fresh* `capture_screen()` (never `last_screenshot`), then substring
containment — lower-cased on both sides unless `case_sensitive`. -/
def findTextOnScreen (vs : VisionState) (text : String) (caseSensitive : Bool) :
    List (Nat × Nat × (Nat × Nat × Nat × Nat)) :=
  if !vs.ocrAvailable then []
  else
    let screenshot := vs.liveScreen
    let elements := getOcrWithPositions vs.ocrAvailable screenshot
    elements.filterMap fun elem =>
      if (if !caseSensitive then occursB (pyLower text.data) (pyLower elem.text.data)
          else occursB text.data elem.text.data) then
        some (elem.posX, elem.posY, elem.bbox)
      else none

/-- Button vocabulary of `_detect_ui_elements` (vision.py lines 143–145). -/
def buttonKeywords : List String :=
  ["button", "click", "submit", "save", "cancel", "ok",
   "login", "logout", "sign in", "sign up", "search",
   "bold", "italic", "underline", "file", "edit", "view"]

/-- Input vocabulary of `_detect_ui_elements` (vision.py line 148). -/
def inputIndicators : List String :=
  ["input", "enter", "type", "search", "email", "password"]

/-- `VisionEngine._detect_ui_elements` (vision.py lines 135–166): coarse
keyword classification.  The source copies the whole element dict and
adds `type`; only `text` and `type` are read downstream. -/
def detectUiElements (elements : List OcrElement) : List UiElem :=
  elements.map fun e =>
    let tl := pyLower e.text.data
    let etype :=
      if buttonKeywords.any (fun kw => occursB kw.data tl) then "button"
      else if inputIndicators.any (fun kw => occursB kw.data tl) then "input"
      else "text"
    ⟨e.text, etype⟩

/-! ## Plan execution (`CommandParser._execute_llm_plan`, parser.py
lines 229–270) -/

/-- Last-binding lookup in a JSON object's field list — Python dicts
built by `json.loads` keep the last duplicate key. -/
def jfind (fields : List (String × Json)) (k : String) : Option Json :=
  match fields with
  | [] => none
  | (k', v) :: rest =>
    match jfind rest k with
    | some w => some w
    | none => if k' = k then some v else none

/-- Python truthiness of a JSON-decoded value. -/
def pyTruthy : Json → Bool
  | .null => false
  | .bool b => b
  | .num q => decide (q ≠ 0)
  | .str s => decide (s ≠ "")
  | .arr l => !l.isEmpty
  | .obj f => !f.isEmpty

/-- `time.sleep` argument handling: numbers (and bools) are accepted
when non-negative; anything else raises. -/
def pySleepArg : Json → Option ℚ
  | .num q => if 0 ≤ q then some q else none
  | .bool b => some (if b then 1 else 0)
  | _ => none

/-- One observable primitive call issued during plan execution. -/
inductive Effect where
  | openedUrl (url : Json)
  | clicked (x y : Json) (bbox : Option (Nat × Nat × Nat × Nat))
  | typed (text : Json)
  | pressedKey (key : Json)
  | waited (seconds : ℚ)

/-- Execution environment: the vision state and, for each primitive of
the `AutomationEngine` that can raise (OS denial, pyautogui fail-safe,
bad argument types — e.g. `automation.click` is called with a `bbox`
keyword its signature does not declare), either success (`none`) or the
exception's message. -/
structure ExecEnv where
  vision : VisionState
  openUrlFail : Json → Option String
  clickFail : Json → Json → Option String
  typeFail : Json → Option String
  pressKeyFail : Json → Option String

/-- `find_text_on_screen` as called from the executor with an arbitrary
decoded step field: a non-string target makes `target.lower()` raise
inside the `try` of vision.py, which catches and returns `[]`. -/
def findTextJson (vs : VisionState) (target : Json) :
    List (Nat × Nat × (Nat × Nat × Nat × Nat)) :=
  match target with
  | .str s => findTextOnScreen vs s false
  | _ => []

/-- One step of `_execute_llm_plan` (parser.py lines 231–268): the
effects the step performs and, if a call raised, the exception message
(at which point the step stops). -/
def executeStep (env : ExecEnv) (step : Json) : List Effect × Option String :=
  match step with
  | Json.obj fields =>
    match jfind fields "action" with
    | some (Json.str a) =>
      if a = "open_url" then
        let url := (jfind fields "url").getD Json.null
        if pyTruthy url then
          match env.openUrlFail url with
          | some msg => ([], some msg)
          | none => ([Effect.openedUrl url, Effect.waited 2], none)
        else ([], none)
      else if a = "click" then
        if (jfind fields "text").isSome then
          let target := (jfind fields "text").getD Json.null
          match findTextJson env.vision target with
          | (x, y, bb) :: _ =>
            match env.clickFail (Json.num (x : ℚ)) (Json.num (y : ℚ)) with
            | some msg => ([], some msg)
            | none => ([Effect.clicked (Json.num (x : ℚ)) (Json.num (y : ℚ)) (some bb),
                        Effect.waited (1/2)], none)
          | [] => ([Effect.waited (1/2)], none)
        else if (jfind fields "x").isSome && (jfind fields "y").isSome then
          let x := (jfind fields "x").getD Json.null
          let y := (jfind fields "y").getD Json.null
          match env.clickFail x y with
          | some msg => ([], some msg)
          | none => ([Effect.clicked x y none, Effect.waited (1/2)], none)
        else ([Effect.waited (1/2)], none)
      else if a = "type" then
        let text := (jfind fields "text").getD (Json.str "")
        if pyTruthy text then
          match env.typeFail text with
          | some msg => ([], some msg)
          | none => ([Effect.typed text, Effect.waited (3/10)], none)
        else ([], none)
      else if a = "wait" ∨ a = "wait_for" then
        let seconds := (jfind fields "seconds").getD ((jfind fields "timeout").getD (Json.num 2))
        match pySleepArg seconds with
        | some q => ([Effect.waited q], none)
        | none => ([], some "sleep: invalid argument")
      else if a = "press_key" then
        let key := (jfind fields "key").getD Json.null
        if pyTruthy key then
          match env.pressKeyFail key with
          | some msg => ([], some msg)
          | none => ([Effect.pressedKey key, Effect.waited (3/10)], none)
        else ([], none)
      else ([], none)
    | _ => ([], none)
  | _ => ([], some "AttributeError: get")

/-- `_execute_llm_plan`'s loop over the plan.  There is no per-step
handler: an exception from a step propagates and ends the loop. -/
def executeLlmPlan (env : ExecEnv) : List Json → List Effect × Option String
  | [] => ([], none)
  | step :: rest =>
    match executeStep env step with
    | (es, some msg) => (es, some msg)
    | (es, none) =>
      let (es2, exc) := executeLlmPlan env rest
      (es ++ es2, exc)

/-- `PromptPilotApp._run_action`'s status computation (main.py
lines 429–459): a string result becomes the status, a non-string result
becomes "✓ Done", and an exception is caught and truncated to 40
characters. -/
def runActionStatus (outcome : Except String (Option String)) : String :=
  match outcome with
  | .ok (some s) => s
  | .ok none => "✓ Done"
  | .error e => "✗ Error: " ++ String.mk (e.data.take 40)

/-- A plan action run under `_run_action`: the effect trace together
with the status the worker reports (`_execute_llm_plan` returns
"✓ Plan executed successfully" when the loop completes). -/
def runPlanAction (env : ExecEnv) (plan : List Json) : List Effect × String :=
  match executeLlmPlan env plan with
  | (es, some msg) => (es, runActionStatus (Except.error msg))
  | (es, none) => (es, runActionStatus (Except.ok (some "✓ Plan executed successfully")))

/-! ## The Intent Resolver (`CommandParser.parse`, parser.py
lines 20–177) -/

/-- The bound actions a resolution can produce (the Python source binds
a method plus an argument tuple; the embedding fuses them into one
tagged value). -/
inductive ActionCall where
  | describeScreen
  | findAndClick (target : String)
  | findOnScreen (target : String)
  | readScreenText
  | answerQuestion (question : String)
  | createGoogleSheet (name : String)
  | launchApp (appName : String)
  | typeInApp (text appName : String)
  | drawCircleInPaint
  | takeScreenshot
  | openSpotifyAndSearch (query : Option String)
  | openUrl (url : String)
  | copyToClipboard (text : String)
  | executeLlmPlan (plan : List Json)

/-- Which matcher of the priority chain fired, with its extracted
arguments (all extraction happens on the lower-cased stripped prompt). -/
inductive Matched where
  | llmComplex
  | describeScreen
  | findClickLocate (keyword : String) (target : String)
  | readScreenText
  | answerQuestion
  | googleSheet (name : Option String)
  | openApp (appName : String)
  | typeIn (text : String) (appName : String)
  | drawCircle
  | screenshotCapture
  | openSpotify (query : Option String)
  | openUrl (url : String)
  | copyClip (text : String)
  | openFallback (target : String)
  | llmFallback
  | unknown
  deriving DecidableEq

/-- Construction-time configuration of a `CommandParser`: whether a
vision engine was supplied (`self.llm_agent = LLMAgent() if vision else
None`, parser.py line 18) and whether the Ollama backend probe
succeeded (`LLMAgent.is_available`). -/
structure ParserCfg where
  hasVision : Bool
  ollamaAvailable : Bool

/-- The world a resolution runs against: the vision engine state, the
full-text OCR dump `get_ocr_text` would produce, and the outcome of a
backend call, all fixed for the duration of one resolution. -/
structure World where
  vision : VisionState
  ocrText : String
  backend : BackendOutcome

/-- String from a character list. -/
def mkS (l : List Char) : String := String.mk l

/-- The matcher chain of `CommandParser.parse`, in source order, applied
to the lower-cased stripped prompt. -/
def selectBranch (cfg : ParserCfg) (pl : List Char) : Matched :=
  if cfg.hasVision && cfg.ollamaAvailable && needsLlm pl then .llmComplex
  else if cfg.hasVision && reDescribe pl then .describeScreen
  else
    match (if cfg.hasVision then reFindClickLocate pl else none) with
    | some (kw, cap) => .findClickLocate (mkS kw) (mkS (pyStrip cap))
    | none =>
      if cfg.hasVision && reReadText pl then .readScreenText
      else if cfg.hasVision && reAnswer pl then .answerQuestion
      else if reSheet pl then .googleSheet ((extractName pl).map mkS)
      else
        match (if reOpenOuter pl then reOpenInner pl else none) with
        | some app => .openApp (mkS app)
        | none =>
          match reQuotedAfterKw (strL "type") pl <|> reTypeUnquoted pl with
          | some txt =>
            .typeIn (mkS (pyStrip txt))
              (match reInApp pl with
               | some a => mkS (pyStrip a)
               | none => "notepad")
          | none =>
            if reDraw pl then .drawCircle
            else if reScreenshot pl then .screenshotCapture
            else if reOpenSpotify pl then
              .openSpotify ((rePlay pl).map (fun q => mkS (pyStrip q)))
            else
              match reOpenUrl pl with
              | some url => .openUrl (mkS url)
              | none =>
                match reQuotedAfterKw (strL "copy") pl with
                | some txt => .copyClip (mkS txt)
                | none =>
                  if (strL "open ").isPrefixOf pl then
                    .openFallback (mkS (pyStrip (pl.drop 5)))
                  else if cfg.hasVision && cfg.ollamaAvailable then .llmFallback
                  else .unknown

/-- The help message of the final `return` (parser.py line 174). -/
def unknownStatus : String :=
  "Unknown command. Try: " ++ aposS ++ "open chrome" ++ aposS ++ ", " ++
    aposS ++ "type hello in notepad" ++ aposS ++ ", " ++ aposS ++ "take screenshot" ++ aposS

/-- `CommandParser._parse_with_llm` (parser.py lines 205–227). -/
def parseWithLlm (cfg : ParserCfg) (w : World) (prompt : String) :
    String × Option ActionCall :=
  if !cfg.hasVision then ("LLM not available", none)
  else
    let uiElements :=
      detectUiElements (getOcrWithPositions w.vision.ocrAvailable w.vision.liveScreen)
    let result := generatePlan cfg.ollamaAvailable w.backend prompt w.ocrText uiElements
    if result.plan.isEmpty then
      ("Could not generate plan. Try a simpler command.", none)
    else
      ("Executing intelligent plan...", some (ActionCall.executeLlmPlan result.plan))

/-- The status message and bound action each matcher arm returns
(the `return` statements of `CommandParser.parse`, in source order). -/
def dispatch (cfg : ParserCfg) (w : World) (prompt : String) :
    Matched → String × Option ActionCall
  | .llmComplex => parseWithLlm cfg w prompt
  | .describeScreen => ("Analyzing screen...", some .describeScreen)
  | .findClickLocate kw target =>
    if kw = "click" then
      ("Finding and clicking " ++ aposS ++ target ++ aposS ++ "...",
       some (.findAndClick target))
    else
      ("Searching for " ++ aposS ++ target ++ aposS ++ "...",
       some (.findOnScreen target))
  | .readScreenText => ("Reading text on screen...", some .readScreenText)
  | .answerQuestion => ("Analyzing screen to answer question...", some (.answerQuestion prompt))
  | .googleSheet nm =>
    let name := match nm with
      | some s => if s = "" then "Untitled" else s
      | none => "Untitled"
    ("Opening Google Sheets...", some (.createGoogleSheet name))
  | .openApp app => ("Opening " ++ app ++ "...", some (.launchApp app))
  | .typeIn txt app => ("Opening " ++ app ++ " and typing...", some (.typeInApp txt app))
  | .drawCircle => ("Opening Paint and drawing circle...", some .drawCircleInPaint)
  | .screenshotCapture => ("Taking screenshot...", some .takeScreenshot)
  | .openSpotify q => ("Opening Spotify...", some (.openSpotifyAndSearch q))
  | .openUrl url => ("Opening " ++ url ++ "...", some (.openUrl url))
  | .copyClip txt => ("Copying to clipboard...", some (.copyToClipboard txt))
  | .openFallback target =>
    if charIn '.' target.data && !(charIn ' ' target.data) then
      let url := if (strL "http").isPrefixOf target.data then target
                 else "https://" ++ target
      ("Opening " ++ url ++ "...", some (.openUrl url))
    else
      ("Opening " ++ target ++ "...", some (.launchApp target))
  | .llmFallback => parseWithLlm cfg w prompt
  | .unknown => (unknownStatus, none)

/-- `CommandParser.parse`: normalise the prompt, pick the first matcher
that fires, return its status message and bound action. -/
def parse (cfg : ParserCfg) (w : World) (prompt : String) :
    String × Option ActionCall :=
  dispatch cfg w prompt (selectBranch cfg (pyLowerStrip prompt.data))

/-! ## Normalisation lemmas -/

theorem char_ofNat_toNat_of_valid (n : Nat) (h : n.isValidChar) :
    (Char.ofNat n).toNat = n := by
  unfold Char.ofNat
  rw [dif_pos h]
  rfl

theorem pyToLower_toNat (c : Char) :
    (pyToLower c).toNat =
      if 65 ≤ c.toNat ∧ c.toNat ≤ 90 then c.toNat + 32 else c.toNat := by
  by_cases h : 65 ≤ c.toNat ∧ c.toNat ≤ 90
  · simp only [pyToLower, h, if_true, if_pos]
    exact char_ofNat_toNat_of_valid _ (Or.inl (by omega))
  · simp [pyToLower, h]

theorem pyToLower_eq_self {c : Char} (h : ¬(65 ≤ c.toNat ∧ c.toNat ≤ 90)) :
    pyToLower c = c := by
  simp [pyToLower, h]

theorem pyToLower_idem (c : Char) : pyToLower (pyToLower c) = pyToLower c := by
  apply pyToLower_eq_self
  have ht := pyToLower_toNat c
  split at ht <;> omega

theorem isPyWs_pyToLower (c : Char) : isPyWs (pyToLower c) = isPyWs c := by
  by_cases h : 65 ≤ c.toNat ∧ c.toNat ≤ 90
  · have ht : (pyToLower c).toNat = c.toNat + 32 := by
      rw [pyToLower_toNat, if_pos h]
    simp only [isPyWs, decide_eq_decide, ht]
    omega
  · rw [pyToLower_eq_self h]

theorem dropWhile_dropWhile (p : α → Bool) (l : List α) :
    (l.dropWhile p).dropWhile p = l.dropWhile p := by
  induction l with
  | nil => rfl
  | cons a t ih =>
    by_cases h : p a
    · simp [List.dropWhile_cons, h, ih]
    · simp [List.dropWhile_cons, h]

theorem dropWhile_eq_self_of_prefix {p : α → Bool} {l₁ l₂ : List α}
    (hpre : l₁ <+: l₂) (h : l₂.dropWhile p = l₂) : l₁.dropWhile p = l₁ := by
  cases l₁ with
  | nil => rfl
  | cons a t =>
    obtain ⟨s, hs⟩ := hpre
    by_cases hp : p a
    · exfalso
      rw [← hs, List.cons_append, List.dropWhile_cons_of_pos hp] at h
      have hle := (List.dropWhile_suffix (l := t ++ s) p).length_le
      have hlen := congrArg List.length h
      simp at hle hlen
      omega
    · rw [List.dropWhile_cons_of_neg hp]

theorem pyStrip_prefix_dropWhile (l : List Char) :
    pyStrip l <+: l.dropWhile isPyWs := by
  unfold pyStrip
  conv_rhs => rw [← List.reverse_reverse (l.dropWhile isPyWs)]
  exact List.reverse_prefix.mpr (List.dropWhile_suffix _)

theorem pyStrip_dropWhile (l : List Char) :
    (pyStrip l).dropWhile isPyWs = pyStrip l :=
  dropWhile_eq_self_of_prefix (pyStrip_prefix_dropWhile l) (dropWhile_dropWhile _ _)

theorem pyStrip_idem (l : List Char) : pyStrip (pyStrip l) = pyStrip l := by
  show (((pyStrip l).dropWhile isPyWs).reverse.dropWhile isPyWs).reverse = pyStrip l
  rw [pyStrip_dropWhile]
  have hrev : (pyStrip l).reverse = (l.dropWhile isPyWs).reverse.dropWhile isPyWs := by
    unfold pyStrip
    rw [List.reverse_reverse]
  rw [hrev, dropWhile_dropWhile, ← hrev, List.reverse_reverse]

theorem pyLower_pyStrip (l : List Char) :
    pyLower (pyStrip l) = pyStrip (pyLower l) := by
  have hws : (isPyWs ∘ pyToLower) = isPyWs := funext isPyWs_pyToLower
  have h1 : ∀ m : List Char,
      (m.map pyToLower).dropWhile isPyWs = (m.dropWhile isPyWs).map pyToLower := by
    intro m
    rw [List.dropWhile_map, hws]
  unfold pyLower pyStrip
  rw [h1 l, ← List.map_reverse, h1, ← List.map_reverse]

theorem pyLower_idem (l : List Char) : pyLower (pyLower l) = pyLower l := by
  unfold pyLower
  rw [List.map_map, show pyToLower ∘ pyToLower = pyToLower from funext pyToLower_idem]

theorem pyLowerStrip_idem (l : List Char) :
    pyLowerStrip (pyLowerStrip l) = pyLowerStrip l := by
  unfold pyLowerStrip
  rw [pyLower_pyStrip, pyLower_idem, pyStrip_idem]

/-! ## Concrete fixtures -/

/-- A vision state with no OCR backend, an empty screen, no cache. -/
def emptyVision : VisionState := ⟨false, [], none⟩

/-- A fixed world for concrete resolutions: empty screen, backend that
would time out if called. -/
def trivialWorld : World := ⟨emptyVision, "", BackendOutcome.timeout⟩

/-! ## Claims -/

/-- **C2** (counterexample).  With the backend unavailable, resolving
"configure my email and then open it" does *not* return a null action
with a guidance message: the `open\s+(...)` application matcher
(parser.py line 84) fires on the trailing "open it" and binds
`launch_app("it")` — even though the instruction is flagged complex by
`_needs_llm`. -/
theorem C2_counterexample :
    parse ⟨true, false⟩ trivialWorld "configure my email and then open it" =
      ("Opening it...", some (ActionCall.launchApp "it")) ∧
    needsLlm (pyLowerStrip (strL "configure my email and then open it")) = true := by
  exact ⟨rfl, rfl⟩

/-- **C2** (amended).  When no language-model backend is available
(`ollamaAvailable = false`), resolving "configure my email and then open
it" — which *is* flagged complex by the heuristic — returns, for every
vision configuration and every world, the bound launch-application
action `launch_app("it")` with status "Opening it...", produced by the
`open` application matcher; resolution is a total function, so it never
raises. -/
theorem C2_amended (hasVision : Bool) (w : World) :
    parse ⟨hasVision, false⟩ w "configure my email and then open it" =
      ("Opening it...", some (ActionCall.launchApp "it")) ∧
    needsLlm (pyLowerStrip (strL "configure my email and then open it")) = true := by
  cases hasVision <;> exact ⟨rfl, rfl⟩

/-- **C7** (confirmed).  For every parser configuration and world,
resolving "type 'hello world' in notepad" yields the bound
type-in-application action with text exactly "hello world" (quotes
stripped) and application exactly "notepad". -/
theorem C7_type_hello_world (cfg : ParserCfg) (w : World) :
    parse cfg w ("type " ++ aposS ++ "hello world" ++ aposS ++ " in notepad") =
      ("Opening notepad and typing...",
       some (ActionCall.typeInApp "hello world" "notepad")) := by
  obtain ⟨hv, oa⟩ := cfg
  cases hv <;> cases oa <;> rfl

/-- A non-empty string stays non-empty under right-append. -/
theorem append_len_pos {s : String} (t : String) (h : 0 < s.length) :
    0 < (s ++ t).length := by
  rw [String.length_append]
  omega

/-- `_parse_with_llm` always returns a non-empty status message. -/
theorem parseWithLlm_status_len (cfg : ParserCfg) (w : World) (p : String) :
    0 < (parseWithLlm cfg w p).1.length := by
  unfold parseWithLlm
  split
  · decide
  · dsimp only
    split
    · show 0 < ("Could not generate plan. Try a simpler command." : String).length
      decide
    · show 0 < ("Executing intelligent plan..." : String).length
      decide

/-- **C6** (confirmed).  Resolution is deterministic: resolving the same
instruction against the same world twice yields the same result; matcher
selection (with all extracted arguments) is a function of the
lower-cased stripped prompt alone — any two instructions with the same
normalisation select the same matcher, and re-normalising a normalised
prompt changes nothing (`prompt.lower().strip()` is idempotent). -/
theorem C6_deterministic (cfg : ParserCfg) (w : World) (p : String) :
    (∀ r₁ r₂, parse cfg w p = r₁ → parse cfg w p = r₂ → r₁ = r₂) ∧
    (∀ q : String, pyLowerStrip q.data = pyLowerStrip p.data →
      selectBranch cfg (pyLowerStrip q.data) = selectBranch cfg (pyLowerStrip p.data)) ∧
    selectBranch cfg (pyLowerStrip (mkS (pyLowerStrip p.data)).data) =
      selectBranch cfg (pyLowerStrip p.data) := by
  refine ⟨fun r₁ r₂ h₁ h₂ => h₁.symm.trans h₂, fun q hq => by rw [hq], ?_⟩
  have hd : (mkS (pyLowerStrip p.data)).data = pyLowerStrip p.data := rfl
  rw [hd, pyLowerStrip_idem]

/-- **C6** witness: the hypotheses are satisfiable — a second resolution
of "open chrome" agrees with the first, and "Open Chrome " (different
case and trailing blank, same normalisation) selects the same matcher. -/
theorem C6_witness :
    parse ⟨false, false⟩ trivialWorld "open chrome" =
      parse ⟨false, false⟩ trivialWorld "open chrome" ∧
    selectBranch ⟨false, false⟩ (pyLowerStrip (strL "Open Chrome ")) =
      selectBranch ⟨false, false⟩ (pyLowerStrip (strL "open chrome")) :=
  ⟨(C6_deterministic ⟨false, false⟩ trivialWorld "open chrome").1 _ _ rfl rfl,
   (C6_deterministic ⟨false, false⟩ trivialWorld "open chrome").2.1 "Open Chrome " (by rfl)⟩

/-- **C8** (confirmed).  Every instruction that reaches the final
fallback matcher with target `target` (i.e. the normalised prompt starts
with "open " and no earlier matcher fired) resolves to: a URL-opening
action on `target` — with "https://" prepended unless `target` already
starts with "http" — when `target` contains a dot and no space, and a
launch-application action on `target` otherwise. -/
theorem C8_open_fallback (cfg : ParserCfg) (w : World) (p : String) (target : String)
    (h : selectBranch cfg (pyLowerStrip p.data) = Matched.openFallback target) :
    parse cfg w p =
      (if charIn '.' target.data && !(charIn ' ' target.data) then
        (let url := if (strL "http").isPrefixOf target.data then target
                    else "https://" ++ target
         ("Opening " ++ url ++ "...", some (ActionCall.openUrl url)))
       else ("Opening " ++ target ++ "...", some (ActionCall.launchApp target))) := by
  unfold parse
  rw [h]
  rfl

/-- **C8** witness: "open google.com" reaches the fallback (the earlier
`open\s+(...)` matcher cannot capture past the dot), is classified as a
URL, and gets "https://" prepended. -/
theorem C8_witness :
    parse ⟨false, false⟩ trivialWorld "open google.com" =
      ("Opening https://google.com...", some (ActionCall.openUrl "https://google.com")) := by
  rw [C8_open_fallback ⟨false, false⟩ trivialWorld "open google.com" "google.com" rfl]
  rfl

/-- **C9** (confirmed).  Every return path of the resolver produces a
non-empty status string.  (The rest of the claimed shape is enforced by
the embedding's types, mirroring the uniform source shape: the second
component is always a dict `{action, args}` — here an
`Option ActionCall` that fuses the callable-or-`None` with its argument
tuple.) -/
theorem C9_result_shape (cfg : ParserCfg) (w : World) (p : String) :
    0 < (parse cfg w p).1.length := by
  unfold parse
  generalize selectBranch cfg (pyLowerStrip p.data) = m
  cases m with
  | llmComplex => exact parseWithLlm_status_len cfg w p
  | llmFallback => exact parseWithLlm_status_len cfg w p
  | describeScreen =>
    show 0 < ("Analyzing screen..." : String).length
    decide
  | findClickLocate kw target =>
    have hd : dispatch cfg w p (Matched.findClickLocate kw target) =
        if kw = "click"
        then ("Finding and clicking " ++ aposS ++ target ++ aposS ++ "...",
              some (ActionCall.findAndClick target))
        else ("Searching for " ++ aposS ++ target ++ aposS ++ "...",
              some (ActionCall.findOnScreen target)) := rfl
    rw [hd]
    split
    · exact append_len_pos _ (append_len_pos _ (append_len_pos _ (append_len_pos _ (by decide))))
    · exact append_len_pos _ (append_len_pos _ (append_len_pos _ (append_len_pos _ (by decide))))
  | readScreenText =>
    show 0 < ("Reading text on screen..." : String).length
    decide
  | answerQuestion =>
    show 0 < ("Analyzing screen to answer question..." : String).length
    decide
  | googleSheet nm =>
    show 0 < ("Opening Google Sheets..." : String).length
    decide
  | openApp app => exact append_len_pos _ (append_len_pos _ (by decide))
  | typeIn txt app => exact append_len_pos _ (append_len_pos _ (by decide))
  | drawCircle =>
    show 0 < ("Opening Paint and drawing circle..." : String).length
    decide
  | screenshotCapture =>
    show 0 < ("Taking screenshot..." : String).length
    decide
  | openSpotify q =>
    show 0 < ("Opening Spotify..." : String).length
    decide
  | openUrl url => exact append_len_pos _ (append_len_pos _ (by decide))
  | copyClip txt =>
    show 0 < ("Copying to clipboard..." : String).length
    decide
  | openFallback target =>
    have hd : dispatch cfg w p (Matched.openFallback target) =
        if charIn '.' target.data && !(charIn ' ' target.data) then
          (let url := if (strL "http").isPrefixOf target.data then target
                      else "https://" ++ target
           ("Opening " ++ url ++ "...", some (ActionCall.openUrl url)))
        else ("Opening " ++ target ++ "...", some (ActionCall.launchApp target)) := rfl
    rw [hd]
    split
    · exact append_len_pos _ (append_len_pos _ (by decide))
    · exact append_len_pos _ (append_len_pos _ (by decide))
  | unknown =>
    show 0 < unknownStatus.length
    decide

/-! ## Shape lemmas for the plan extraction (claim C3) -/

theorem pyFindChar_head {cs : List Char} {c : Char} {i : Nat}
    (h : pyFindChar cs c = some i) : (cs.drop i).head? = some c := by
  induction cs generalizing i with
  | nil => simp [pyFindChar] at h
  | cons d rest ih =>
    rw [pyFindChar] at h
    by_cases hd : d = c
    · rw [if_pos hd] at h
      injection h with h'
      subst h'
      simp [hd]
    · rw [if_neg hd] at h
      cases hm : pyFindChar rest c with
      | none => rw [hm] at h; simp at h
      | some j =>
        rw [hm] at h
        simp only [Option.map_some'] at h
        injection h with h'
        subst h'
        simpa using ih hm

theorem bracketBlock_head {o c : Char} {cs slice : List Char}
    (h : bracketBlock o c cs = some slice) : slice.head? = some o := by
  unfold bracketBlock at h
  cases hf : pyFindChar cs o with
  | none => rw [hf] at h; simp at h
  | some i =>
    cases hr : pyRFindChar cs c with
    | none => rw [hf, hr] at h; simp at h
    | some j =>
      rw [hf, hr] at h
      dsimp only at h
      split at h
      · injection h with h'
        subst h'
        obtain ⟨m, hm⟩ : ∃ m, j + 1 - i = m + 1 := ⟨j - i, by omega⟩
        have hh := pyFindChar_head hf
        cases hd : cs.drop i with
        | nil => rw [hd] at hh; simp at hh
        | cons a t =>
          rw [hd] at hh
          rw [hm, List.take_succ_cons]
          simpa using hh
      · simp at h

theorem pJsonItems_shape (fuel : Nat) :
    ∀ (cs : List Char) (acc : List Json) (v : Json) (r : List Char),
      pJsonItems fuel cs acc = some (v, r) → ∃ xs, v = Json.arr xs := by
  induction fuel with
  | zero => intro cs acc v r h; simp [pJsonItems] at h
  | succ n ih =>
    intro cs acc v r h
    rw [pJsonItems] at h
    cases hv : pJsonValue n cs with
    | none => rw [hv] at h; simp at h
    | some p =>
      obtain ⟨v', r'⟩ := p
      rw [hv] at h
      dsimp only at h
      cases hs : jsonSkipWs r' with
      | nil => rw [hs] at h; simp at h
      | cons ch r2 =>
        rw [hs] at h
        dsimp only at h
        by_cases hc : ch = ','
        · rw [if_pos hc] at h
          exact ih _ _ _ _ h
        · rw [if_neg hc] at h
          by_cases hc2 : ch = ']'
          · rw [if_pos hc2] at h
            injection h with h'
            injection h' with h1 h2
            exact ⟨_, h1.symm⟩
          · rw [if_neg hc2] at h
            simp at h

theorem pJsonFields_shape (fuel : Nat) :
    ∀ (cs : List Char) (acc : List (String × Json)) (v : Json) (r : List Char),
      pJsonFields fuel cs acc = some (v, r) → ∃ kvs, v = Json.obj kvs := by
  induction fuel with
  | zero => intro cs acc v r h; simp [pJsonFields] at h
  | succ n ih =>
    intro cs acc v r h
    rw [pJsonFields] at h
    cases hs : jsonSkipWs cs with
    | nil => rw [hs] at h; simp at h
    | cons c0 r0 =>
      rw [hs] at h
      dsimp only at h
      by_cases hc0 : c0 = '"'
      · rw [if_pos hc0] at h
        cases hstr : pJsonString [] r0 with
        | none => rw [hstr] at h; simp at h
        | some p =>
          obtain ⟨k, r2⟩ := p
          rw [hstr] at h
          dsimp only at h
          cases hs2 : jsonSkipWs r2 with
          | nil => rw [hs2] at h; simp at h
          | cons c1 r3 =>
            rw [hs2] at h
            dsimp only at h
            by_cases hc1 : c1 = ':'
            · rw [if_pos hc1] at h
              cases hval : pJsonValue n r3 with
              | none => rw [hval] at h; simp at h
              | some q =>
                obtain ⟨v', r4⟩ := q
                rw [hval] at h
                dsimp only at h
                cases hs4 : jsonSkipWs r4 with
                | nil => rw [hs4] at h; simp at h
                | cons c2 r5 =>
                  rw [hs4] at h
                  dsimp only at h
                  by_cases hc2 : c2 = ','
                  · rw [if_pos hc2] at h
                    exact ih _ _ _ _ h
                  · rw [if_neg hc2] at h
                    by_cases hc3 : c2 = '\x7d'
                    · rw [if_pos hc3] at h
                      injection h with h'
                      injection h' with h1 h2
                      exact ⟨_, h1.symm⟩
                    · rw [if_neg hc3] at h
                      simp at h
            · rw [if_neg hc1] at h
              simp at h
      · rw [if_neg hc0] at h
        simp at h

theorem pJsonValue_arr_of_lbracket {fuel : Nat} {cs : List Char} {v : Json}
    {r : List Char} (hhead : cs.head? = some '[')
    (h : pJsonValue fuel cs = some (v, r)) : ∃ xs, v = Json.arr xs := by
  cases fuel with
  | zero => simp [pJsonValue] at h
  | succ n =>
    obtain ⟨c0, rest, rfl⟩ : ∃ c0 rest, cs = c0 :: rest := by
      cases cs with
      | nil => simp at hhead
      | cons a t => exact ⟨a, t, rfl⟩
    have hc : c0 = '[' := by simpa using hhead
    subst hc
    have hred : pJsonValue (n + 1) ('[' :: rest) =
        (let r' := jsonSkipWs rest
         if r'.head? = some ']' then some (Json.arr [], r'.tail)
         else pJsonItems n r' []) := rfl
    rw [hred] at h
    dsimp only at h
    split at h
    · injection h with h'
      injection h' with h1 h2
      exact ⟨_, h1.symm⟩
    · exact pJsonItems_shape n _ _ _ _ h

theorem pJsonValue_obj_of_lbrace {fuel : Nat} {cs : List Char} {v : Json}
    {r : List Char} (hhead : cs.head? = some '\x7b')
    (h : pJsonValue fuel cs = some (v, r)) : ∃ kvs, v = Json.obj kvs := by
  cases fuel with
  | zero => simp [pJsonValue] at h
  | succ n =>
    obtain ⟨c0, rest, rfl⟩ : ∃ c0 rest, cs = c0 :: rest := by
      cases cs with
      | nil => simp at hhead
      | cons a t => exact ⟨a, t, rfl⟩
    have hc : c0 = '\x7b' := by simpa using hhead
    subst hc
    have hred : pJsonValue (n + 1) ('\x7b' :: rest) =
        (let r' := jsonSkipWs rest
         if r'.head? = some '\x7d' then some (Json.obj [], r'.tail)
         else pJsonFields n r' []) := rfl
    rw [hred] at h
    dsimp only at h
    split at h
    · injection h with h'
      injection h' with h1 h2
      exact ⟨_, h1.symm⟩
    · exact pJsonFields_shape n _ _ _ _ h

theorem jsonLoads_arr_of_lbracket {s : String} {v : Json}
    (hhead : s.data.head? = some '[') (h : jsonLoads s = some v) :
    ∃ xs, v = Json.arr xs := by
  unfold jsonLoads at h
  cases hp : pJsonValue (2 * s.length + 2) s.data with
  | none => rw [hp] at h; simp at h
  | some p =>
    obtain ⟨v', r⟩ := p
    rw [hp] at h
    dsimp only at h
    split at h
    · injection h with h'
      subst h'
      exact pJsonValue_arr_of_lbracket hhead hp
    · simp at h

theorem jsonLoads_obj_of_lbrace {s : String} {v : Json}
    (hhead : s.data.head? = some '\x7b') (h : jsonLoads s = some v) :
    ∃ kvs, v = Json.obj kvs := by
  unfold jsonLoads at h
  cases hp : pJsonValue (2 * s.length + 2) s.data with
  | none => rw [hp] at h; simp at h
  | some p =>
    obtain ⟨v', r⟩ := p
    rw [hp] at h
    dsimp only at h
    split at h
    · injection h with h'
      subst h'
      exact pJsonValue_obj_of_lbrace hhead hp
    · simp at h

/-- **C3** (counterexample).  The object fallback is *not* attempted
whenever the `[`..`]` block "fails to parse": for the response
`\x7b"action": "wait"\x7d` — no `[` at all, but a perfectly parseable
object — the code skips the bracket branch without raising a decode
error, so the `\x7b`..`\x7d` fallback never runs and the extraction
returns the empty sequence, while the claimed procedure would return the
wrapped object. -/
theorem C3_counterexample :
    generatePlanExtract "\x7b\"action\": \"wait\"\x7d" = [] ∧
    specPlanExtract "\x7b\"action\": \"wait\"\x7d" =
      [Json.obj [("action", Json.str "wait")]] ∧
    ([] : List Json) ≠ [Json.obj [("action", Json.str "wait")]] :=
  ⟨rfl, rfl, fun h => List.noConfusion h⟩

/-- **C3** (amended).  For every backend response: if there is no
first-`[`-to-last-`]` block (no `[`, or no `]` after it), the result is
the empty sequence — even when a parseable `\x7b`..`\x7d` block exists;
if the block exists, any successful parse of it is necessarily a JSON
array, and that array is returned; only when the block exists and its
parse *fails* is the first-`\x7b`-to-last-`\x7d` block tried, whose
successful parse is necessarily a single object, returned wrapped in a
one-element sequence; every remaining failure yields the empty sequence,
never an error (extraction is a total function). -/
theorem C3_amended (response : String) :
    (bracketBlock '[' ']' response.data = none → generatePlanExtract response = []) ∧
    (∀ slice v, bracketBlock '[' ']' response.data = some slice →
        jsonLoads (String.mk slice) = some v → ∃ xs, v = Json.arr xs) ∧
    (∀ slice xs, bracketBlock '[' ']' response.data = some slice →
        jsonLoads (String.mk slice) = some (Json.arr xs) →
        generatePlanExtract response = xs) ∧
    (∀ slice, bracketBlock '[' ']' response.data = some slice →
        jsonLoads (String.mk slice) = none →
        (bracketBlock '\x7b' '\x7d' response.data = none →
            generatePlanExtract response = []) ∧
        (∀ slice2 v, bracketBlock '\x7b' '\x7d' response.data = some slice2 →
            jsonLoads (String.mk slice2) = some v →
            (∃ kvs, v = Json.obj kvs) ∧ generatePlanExtract response = [v]) ∧
        (∀ slice2, bracketBlock '\x7b' '\x7d' response.data = some slice2 →
            jsonLoads (String.mk slice2) = none →
            generatePlanExtract response = [])) := by
  refine ⟨?_, ?_, ?_, ?_⟩
  · intro h
    unfold generatePlanExtract
    rw [h]
  · intro slice v hb hl
    exact jsonLoads_arr_of_lbracket (bracketBlock_head hb) hl
  · intro slice xs hb hl
    unfold generatePlanExtract
    rw [hb]
    dsimp only
    rw [hl]
  · intro slice hb hl
    refine ⟨?_, ?_, ?_⟩
    · intro h2
      unfold generatePlanExtract
      rw [hb]
      dsimp only
      rw [hl, h2]
    · intro slice2 v hb2 hl2
      have hshape := jsonLoads_obj_of_lbrace (bracketBlock_head hb2) hl2
      refine ⟨hshape, ?_⟩
      obtain ⟨kvs, rfl⟩ := hshape
      unfold generatePlanExtract
      rw [hb]
      dsimp only
      rw [hl, hb2]
      dsimp only
      rw [hl2]
    · intro slice2 hb2 hl2
      unfold generatePlanExtract
      rw [hb]
      dsimp only
      rw [hl, hb2]
      dsimp only
      rw [hl2]

/-- **C3** witness: a response with prose around a valid JSON array
extracts exactly that array. -/
theorem C3_witness :
    generatePlanExtract "Here is the plan: [1, 2] - done" =
      [Json.num 1, Json.num 2] :=
  (C3_amended "Here is the plan: [1, 2] - done").2.2.1
    (strL "[1, 2]") [Json.num 1, Json.num 2] rfl rfl

/-- **C4** (confirmed).  Plan synthesis never raises for expected
failure modes: with the availability flag down it returns the empty
sequence immediately without invoking the backend; with the flag up, an
unreachable binary, a 30-second timeout, or a non-zero exit each yield
the empty sequence; and a zero-exit response whose stripped text yields
no extractable plan also produces the empty sequence.  (`generatePlan`
is a total function, so no failure mode can raise.) -/
theorem C4_synthesis_failures :
    (∀ (outcome : BackendOutcome) (up ot : String) (ui : List UiElem),
       generatePlan false outcome up ot ui = ⟨[], false⟩) ∧
    (∀ (up ot : String) (ui : List UiElem),
       generatePlan true BackendOutcome.unreachable up ot ui = ⟨[], true⟩) ∧
    (∀ (up ot : String) (ui : List UiElem),
       generatePlan true BackendOutcome.timeout up ot ui = ⟨[], true⟩) ∧
    (∀ (code : Nat) (out up ot : String) (ui : List UiElem), code ≠ 0 →
       generatePlan true (BackendOutcome.exited code out) up ot ui = ⟨[], true⟩) ∧
    (∀ (out up ot : String) (ui : List UiElem),
       generatePlanExtract (String.mk (pyStrip out.data)) = [] →
       generatePlan true (BackendOutcome.exited 0 out) up ot ui = ⟨[], true⟩) := by
  refine ⟨fun outcome up ot ui => rfl, fun up ot ui => rfl, fun up ot ui => rfl,
          ?_, ?_⟩
  · intro code out up ot ui hc
    cases code with
    | zero => exact absurd rfl hc
    | succ n => rfl
  · intro out up ot ui h
    show (if (String.mk (pyStrip out.data)) = "" then (⟨[], true⟩ : PlanResult)
          else ⟨generatePlanExtract (String.mk (pyStrip out.data)), true⟩) = ⟨[], true⟩
    split
    · rfl
    · rw [h]

/-- **C4** witness: each failure mode at a concrete input. -/
theorem C4_witness :
    generatePlan false BackendOutcome.timeout "x" "y" [] = ⟨[], false⟩ ∧
    generatePlan true BackendOutcome.unreachable "x" "y" [] = ⟨[], true⟩ ∧
    generatePlan true BackendOutcome.timeout "x" "y" [] = ⟨[], true⟩ ∧
    generatePlan true (BackendOutcome.exited 2 "oops") "x" "y" [] = ⟨[], true⟩ ∧
    generatePlan true (BackendOutcome.exited 0 "no json here") "x" "y" [] = ⟨[], true⟩ :=
  ⟨C4_synthesis_failures.1 BackendOutcome.timeout "x" "y" [],
   C4_synthesis_failures.2.1 "x" "y" [],
   C4_synthesis_failures.2.2.1 "x" "y" [],
   C4_synthesis_failures.2.2.2.1 2 "oops" "x" "y" [] (by decide),
   C4_synthesis_failures.2.2.2.2 "no json here" "x" "y" [] (by rfl)⟩

/-! ## Executor fixtures and lemmas (claims C1, C5) -/

/-- A concrete vision state: OCR importable, two fragments on screen. -/
def demoVision : VisionState :=
  ⟨true, [⟨"Submit", 90, 10, 20, 30, 8⟩, ⟨" hello ", 80, 100, 200, 40, 10⟩], none⟩

/-- An execution environment over `demoVision` whose primitives all
succeed. -/
def demoEnv : ExecEnv :=
  ⟨demoVision, fun _ => none, fun _ _ => none, fun _ => none, fun _ => none⟩

/-- Like `demoEnv`, but `open_url` raises "boom". -/
def demoEnvUrlFails : ExecEnv :=
  ⟨demoVision, fun _ => some "boom", fun _ _ => none, fun _ => none, fun _ => none⟩

/-- A `click`-by-text step. -/
def clickTextStep (t : String) : Json :=
  Json.obj [("action", Json.str "click"), ("text", Json.str t)]

/-- A `type` step. -/
def typeStep (t : String) : Json :=
  Json.obj [("action", Json.str "type"), ("text", Json.str t)]

/-- An `open_url` step. -/
def openUrlStep (u : String) : Json :=
  Json.obj [("action", Json.str "open_url"), ("url", Json.str u)]

/-- A `press_key` step. -/
def pressKeyStep (k : String) : Json :=
  Json.obj [("action", Json.str "press_key"), ("key", Json.str k)]

/-- A step that completes without raising lets the loop continue with
the remaining steps. -/
theorem executeLlmPlan_cons_ok (env : ExecEnv) (step : Json) (rest : List Json)
    (es : List Effect) (h : executeStep env step = (es, none)) :
    executeLlmPlan env (step :: rest) =
      (es ++ (executeLlmPlan env rest).1, (executeLlmPlan env rest).2) := by
  rw [executeLlmPlan, h]

/-- A step that raises ends the loop at once. -/
theorem executeLlmPlan_cons_err (env : ExecEnv) (step : Json) (rest : List Json)
    (es : List Effect) (msg : String) (h : executeStep env step = (es, some msg)) :
    executeLlmPlan env (step :: rest) = (es, some msg) := by
  rw [executeLlmPlan, h]

/-- A `click`-by-text step whose target is not on the current screen
performs only the settle wait and does not raise. -/
theorem executeStep_clickText_notFound (env : ExecEnv) (target : String)
    (h : findTextOnScreen env.vision target false = []) :
    executeStep env (clickTextStep target) = ([Effect.waited (1/2)], none) := by
  have hred : executeStep env (clickTextStep target) =
      (match findTextOnScreen env.vision target false with
       | (x, y, bb) :: _ =>
         (match env.clickFail (Json.num (x : ℚ)) (Json.num (y : ℚ)) with
          | some msg => ([], some msg)
          | none => ([Effect.clicked (Json.num (x : ℚ)) (Json.num (y : ℚ)) (some bb),
                      Effect.waited (1/2)], none))
       | [] => ([Effect.waited (1/2)], none)) := rfl
  rw [hred, h]

/-- **C1** (counterexample).  A primitive call that throws does *not*
leave the remaining steps to execute: in a three-step plan whose second
step's `open_url` raises, the third step's `type` never runs — the
exception propagates out of `_execute_llm_plan`'s loop. -/
theorem C1_counterexample :
    executeLlmPlan demoEnvUrlFails [typeStep "a", openUrlStep "u", typeStep "b"] =
      ([Effect.typed (Json.str "a"), Effect.waited (3/10)], some "boom") ∧
    Effect.typed (Json.str "b") ∉
      (executeLlmPlan demoEnvUrlFails [typeStep "a", openUrlStep "u", typeStep "b"]).1 := by
  refine ⟨rfl, ?_⟩
  intro hmem
  have h1 : (executeLlmPlan demoEnvUrlFails
      [typeStep "a", openUrlStep "u", typeStep "b"]).1 =
      [Effect.typed (Json.str "a"), Effect.waited (3/10)] := rfl
  rw [h1] at hmem
  rcases List.mem_cons.mp hmem with h | hmem2
  · injection h with h'
    injection h' with h''
    exact absurd h'' (by decide)
  · rcases List.mem_cons.mp hmem2 with h | h3
    · exact Effect.noConfusion h
    · exact absurd h3 (List.not_mem_nil _)

/-- **C1** (amended).  Step-level isolation holds only for the
target-not-found failure: a `click`-by-text step whose target is absent
is a non-raising no-op (plus the settle wait) and the remaining steps
run unchanged.  A primitive call that throws, however, aborts the
remaining steps of the plan; the exception then reaches `_run_action`'s
worker-level handler, which converts it to a truncated "✗ Error: ..."
status instead of crashing. -/
theorem C1_amended :
    (∀ (env : ExecEnv) (target : String) (rest : List Json),
       findTextOnScreen env.vision target false = [] →
       executeLlmPlan env (clickTextStep target :: rest) =
         (Effect.waited (1/2) :: (executeLlmPlan env rest).1,
          (executeLlmPlan env rest).2)) ∧
    (∀ (env : ExecEnv) (step : Json) (rest : List Json) (es : List Effect) (msg : String),
       executeStep env step = (es, some msg) →
       executeLlmPlan env (step :: rest) = (es, some msg)) ∧
    (∀ (env : ExecEnv) (plan : List Json) (es : List Effect) (msg : String),
       executeLlmPlan env plan = (es, some msg) →
       runPlanAction env plan = (es, "✗ Error: " ++ String.mk (msg.data.take 40))) := by
  refine ⟨?_, ?_, ?_⟩
  · intro env target rest h
    rw [executeLlmPlan_cons_ok env _ rest _ (executeStep_clickText_notFound env target h)]
    rfl
  · intro env step rest es msg h
    exact executeLlmPlan_cons_err env step rest es msg h
  · intro env plan es msg h
    unfold runPlanAction
    rw [h]
    rfl

/-- **C1** witness: the amended statement at concrete plans. -/
theorem C1_amended_witness :
    executeLlmPlan demoEnv (clickTextStep "absent" :: [typeStep "x"]) =
      (Effect.waited (1/2) :: (executeLlmPlan demoEnv [typeStep "x"]).1,
       (executeLlmPlan demoEnv [typeStep "x"]).2) ∧
    executeLlmPlan demoEnvUrlFails (openUrlStep "u" :: [typeStep "b"]) = ([], some "boom") ∧
    runPlanAction demoEnvUrlFails [openUrlStep "u", typeStep "b"] =
      ([], "✗ Error: " ++ String.mk ("boom".data.take 40)) :=
  ⟨C1_amended.1 demoEnv "absent" [typeStep "x"] rfl,
   C1_amended.2.1 demoEnvUrlFails (openUrlStep "u") [typeStep "b"] [] "boom" rfl,
   C1_amended.2.2 demoEnvUrlFails [openUrlStep "u", typeStep "b"] [] "boom"
     (C1_amended.2.1 demoEnvUrlFails (openUrlStep "u") [typeStep "b"] [] "boom" rfl)⟩

/-- **C5** (confirmed).  A `click`-by-text step re-queries the screen
fresh: `find_text_on_screen` reads only the current capture, never the
`last_screenshot` cache (first conjunct: the result is invariant in the
cache).  A target absent from the current snapshot clicks nothing and
does not raise (second conjunct), and in a 3-step plan whose middle
step's target is absent, steps 1 and 3 still execute and the overall
status is the success message, not an aborted state (third conjunct). -/
theorem C5_click_fresh_requery :
    (∀ (ocrA : Bool) (live : List OcrFrag) (c₁ c₂ : Option (List OcrFrag))
       (text : String) (cs : Bool),
       findTextOnScreen ⟨ocrA, live, c₁⟩ text cs =
         findTextOnScreen ⟨ocrA, live, c₂⟩ text cs) ∧
    (∀ (env : ExecEnv) (target : String),
       findTextOnScreen env.vision target false = [] →
       executeStep env (clickTextStep target) = ([Effect.waited (1/2)], none)) ∧
    (∀ (env : ExecEnv) (s1 s3 : Json) (target : String) (e1 e3 : List Effect),
       executeStep env s1 = (e1, none) → executeStep env s3 = (e3, none) →
       findTextOnScreen env.vision target false = [] →
       runPlanAction env [s1, clickTextStep target, s3] =
         (e1 ++ Effect.waited (1/2) :: e3, "✓ Plan executed successfully")) := by
  refine ⟨fun ocrA live c₁ c₂ text cs => rfl, executeStep_clickText_notFound, ?_⟩
  intro env s1 s3 target e1 e3 h1 h3 hf
  have h2 := executeStep_clickText_notFound env target hf
  have hplan : executeLlmPlan env [s1, clickTextStep target, s3] =
      (e1 ++ Effect.waited (1/2) :: e3, none) := by
    rw [executeLlmPlan_cons_ok env _ _ _ h1, executeLlmPlan_cons_ok env _ _ _ h2,
        executeLlmPlan_cons_ok env _ _ _ h3]
    have hnil : executeLlmPlan env ([] : List Json) = ([], none) := rfl
    rw [hnil]
    simp
  unfold runPlanAction
  rw [hplan]
  rfl

/-- **C5** witness: a concrete 3-step plan (type, click an absent
target, press a key) over a concrete screen. -/
theorem C5_witness :
    runPlanAction demoEnv [typeStep "a", clickTextStep "absent", pressKeyStep "enter"] =
      ([Effect.typed (Json.str "a"), Effect.waited (3/10)] ++
         Effect.waited (1/2) ::
           [Effect.pressedKey (Json.str "enter"), Effect.waited (3/10)],
       "✓ Plan executed successfully") :=
  C5_click_fresh_requery.2.2 demoEnv (typeStep "a") (pressKeyStep "enter") "absent"
    [Effect.typed (Json.str "a"), Effect.waited (3/10)]
    [Effect.pressedKey (Json.str "enter"), Effect.waited (3/10)] rfl rfl rfl

/-- **C10** (confirmed).  `find_text_on_screen` matches by substring
containment, not exact equality: an OCR element is reported exactly when
the target occurs anywhere inside its text (both sides lower-cased when
`case_sensitive` is false, verbatim otherwise), and every reported
triple is the centre point of some on-screen fragment's bounding box
(`x + w/2`, `y + h/2`) together with that box, for a fragment whose
stripped text is non-empty and whose confidence is positive. -/
theorem C10_findText_substring (vs : VisionState) (target : String) (cs : Bool)
    (havail : vs.ocrAvailable = true) :
    (∀ e ∈ getOcrWithPositions true vs.liveScreen,
       (if !cs then occursB (pyLower target.data) (pyLower e.text.data)
        else occursB target.data e.text.data) = true →
       (e.posX, e.posY, e.bbox) ∈ findTextOnScreen vs target cs) ∧
    (∀ p ∈ findTextOnScreen vs target cs, ∃ f ∈ vs.liveScreen,
       pyStripS f.text ≠ "" ∧ 0 < f.conf ∧
       (if !cs then occursB (pyLower target.data) (pyLower (pyStripS f.text).data)
        else occursB target.data (pyStripS f.text).data) = true ∧
       p = (f.x + f.w / 2, f.y + f.h / 2, (f.x, f.y, f.w, f.h))) := by
  have hred : findTextOnScreen vs target cs =
      (getOcrWithPositions true vs.liveScreen).filterMap (fun elem =>
        if (if !cs then occursB (pyLower target.data) (pyLower elem.text.data)
            else occursB target.data elem.text.data) then
          some (elem.posX, elem.posY, elem.bbox)
        else none) := by
    unfold findTextOnScreen
    rw [havail]
    rfl
  have hocr : getOcrWithPositions true vs.liveScreen =
      vs.liveScreen.filterMap (fun f =>
        if pyStripS f.text ≠ "" ∧ 0 < f.conf then
          some ⟨pyStripS f.text, f.x + f.w / 2, f.y + f.h / 2,
                (f.x, f.y, f.w, f.h)⟩
        else none) := rfl
  constructor
  · intro e he hc
    rw [hred]
    exact List.mem_filterMap.mpr ⟨e, he, by rw [if_pos hc]⟩
  · intro p hp
    rw [hred] at hp
    obtain ⟨e, he, hfe⟩ := List.mem_filterMap.mp hp
    by_cases hb : (if !cs then occursB (pyLower target.data) (pyLower e.text.data)
                   else occursB target.data e.text.data) = true
    · rw [if_pos hb] at hfe
      injection hfe with hfe'
      rw [hocr] at he
      obtain ⟨f, hf, hGf⟩ := List.mem_filterMap.mp he
      split at hGf
      · rename_i hcond
        injection hGf with hGf'
        refine ⟨f, hf, hcond.1, hcond.2, ?_, ?_⟩
        · rw [← hGf'] at hb
          exact hb
        · rw [← hfe', ← hGf']
      · exact Option.noConfusion hGf
    · rw [if_neg hb] at hfe
      exact Option.noConfusion hfe

/-- **C10** witness: on a concrete screen containing the fragment
"Submit" (bounding box (10, 20, 30, 8), confidence 90), the target
"sub" is reported — substring, case-insensitive — at the centre
(25, 24) with that box. -/
theorem C10_witness :
    ((25 : Nat), (24 : Nat), ((10 : Nat), (20 : Nat), (30 : Nat), (8 : Nat))) ∈
      findTextOnScreen demoVision "sub" false :=
  (C10_findText_substring demoVision "sub" false rfl).1
    ⟨"Submit", 25, 24, (10, 20, 30, 8)⟩ (by decide) (by decide)
